import Mathlib

/-!
Verification of the content-production pipeline.

This file gives a shallow embedding of the core of the pipeline:

* the Sentence Segmentation Engine of `5-spacy_sentence_parser.py`
  (`process_chapter_file`, `process_all_chapter_files`,
  `create_audio_filename`, `parse_sentences`, `parse_paragraphs`,
  reference-marker handling),
* the Chapter Extractor of `4-chapter_subbook_extraction.py`
  (`extract_chapters`, `write_current_chapter`),
* the Translator of `7-translator.py`
  (`process_sentence`, `translate_content`, `process_json_file`),

and proves the behavioural properties of these functions.

External collaborators are modelled as function parameters:

* the spaCy sentence-boundary detector is a parameter
  `nlp : String → List String` (the spec treats it as an external
  capability `segment(line) -> ordered sequence of string`);
* the OpenAI translation call is a parameter
  `tr : String → String → Option String` (`none` models the exception
  path of `translate_text`, which the code turns into `""`).

File I/O is modelled by the value that reading a chapter file produces
(`ChapterRead`): `failed` for an unreadable file, `empty` for an empty
one, `content` for the raw first line (the title line) together with the
remaining raw lines.  UUID fields (`chapterID`, `paragraphID`,
`sentenceID`) are opaque random identifiers and are not represented;
no claim mentions them.

The Translator works on in-memory JSON object trees that Python mutates
in place.  To make the frame/aliasing claims meaningful, sentence
objects live in an explicit heap (`THeap`, a list of sentence cells
addressed by position) and a chapter is a tree of addresses
(`ChapterRef`); `json.loads(json.dumps(...))` is modelled by allocating
fresh cells holding copies of the addressed data.
-/

namespace ContentPipeline

/-! ## Data model: the Chapter Record produced by the Segmentation Engine -/

/-- A Sentence Record (one element of a paragraph's `sentences` array).
The `sentenceID` uuid is omitted (opaque, random). -/
structure Sentence where
  sentenceIndex : Nat
  globalSentenceIndex : Nat
  reference : String
  text : String
  audioFile : String
deriving DecidableEq, Inhabited

/-- A Paragraph Record.  The `paragraphID` uuid is omitted. -/
structure Paragraph where
  paragraphIndex : Nat
  sentences : List Sentence
deriving DecidableEq, Inhabited

/-- A Chapter Record.  The `chapterID` uuid is omitted. -/
structure Chapter where
  language : String
  chapterNumber : Nat
  chapterTitle : String
  paragraphs : List Paragraph
deriving DecidableEq, Inhabited

/-! ## Pure helpers of `5-spacy_sentence_parser.py`

String operations are implemented over the character list `String.data`
(the library's byte-position based versions are extensionally the same
on these inputs but do not reduce inside the kernel, which the concrete
witnesses below require). -/

/-- Python's `str.strip()`: drop leading and trailing whitespace. -/
def pyStrip (s : String) : String :=
  String.mk
    (((s.data.dropWhile Char.isWhitespace).reverse.dropWhile
        Char.isWhitespace).reverse)

/-- Python's `str.lower()` (ASCII behaviour suffices here). -/
def strLower (s : String) : String :=
  String.mk (s.data.map Char.toLower)

/-- Python's `str.capitalize()`: first character uppercased, the rest
lowercased (ASCII behaviour suffices for the titles in scope). -/
def pyCapitalize (w : String) : String :=
  match w.data with
  | [] => ""
  | c :: cs => String.mk (c.toUpper :: cs.map Char.toLower)

/-- Worker for `pySplit`: collect maximal runs of non-whitespace
characters (`acc` holds the current run in reverse). -/
def splitWSGo (acc : List Char) : List Char → List String
  | [] => if acc.isEmpty then [] else [String.mk acc.reverse]
  | c :: rest =>
    if c.isWhitespace then
      if acc.isEmpty then splitWSGo [] rest
      else String.mk acc.reverse :: splitWSGo [] rest
    else splitWSGo (c :: acc) rest

/-- Python's `str.split()` with no argument: split on whitespace runs,
dropping empty pieces. -/
def pySplit (text : String) : List String :=
  splitWSGo [] text.data

/-- Join words with single spaces (`" ".join(words)`). -/
def joinWithSpace : List String → String
  | [] => ""
  | [w] => w
  | w :: ws => w ++ " " ++ joinWithSpace ws

/-- `title_case` from `5-spacy_sentence_parser.py`: capitalize each word
unless it is one of the lowercase exceptions, except that the first word
is always capitalized. -/
def title_case (text : String) : String :=
  let exceptions : List String :=
    ["of", "and", "the", "in", "on", "at", "to", "for", "with", "a", "an"]
  joinWithSpace <|
    (pySplit text).enum.map fun iw =>
      if strLower iw.2 ∉ exceptions ∨ iw.1 = 0 then pyCapitalize iw.2
      else strLower iw.2

/-- Zero-padding of the global index to width 7, Python's `f"{n:07d}"`
for a non-negative `n`. -/
def pad7 (n : Nat) : String :=
  let s := toString n
  String.mk (List.replicate (7 - s.length) '0') ++ s

/-- `create_audio_filename` from `5-spacy_sentence_parser.py`: the
audio filename derived from the sentence's coordinate tuple. -/
def create_audio_filename (sequential_index : Nat) (book_code : String)
    (subbook_num chapter_num paragraph_num sentence_num : Nat)
    (language : String) : String :=
  pad7 sequential_index ++ "_" ++ book_code ++
    "_S" ++ toString subbook_num ++
    "_C" ++ toString chapter_num ++
    "_P" ++ toString paragraph_num ++
    "_S" ++ toString sentence_num ++
    "_" ++ language ++ ".aac"

/-- `parse_sentences` from `5-spacy_sentence_parser.py`: the external
segmenter's pieces, each stripped, empty pieces dropped; if nothing
remains, the whole (stripped) line is one sentence. -/
def parse_sentences (line : String) (nlp : String → List String) :
    List String :=
  let sentences := ((nlp line).map pyStrip).filter (fun s => s ≠ "")
  if sentences.isEmpty then [pyStrip line] else sentences

/-! ## The reference-marker regex

`re.match(r'<!--\s*REF:\s*(.+?)\s*-->', line, re.IGNORECASE)` matches a
prefix of the (already stripped, newline-free) line: the literal
`<!--`, optional whitespace, `REF:` in any case, optional whitespace,
then a lazy non-empty capture followed by optional whitespace and
`-->`.  Because whitespace characters are never `-`:

* the trailing greedy `\s*` succeeds exactly when, after dropping all
  whitespace following the capture, the literal `-->` follows;
* the `\s*` before `REF:` can only consume its whole whitespace run;
* the middle `\s*` first consumes its whole whitespace run `w`, after
  which the lazy capture scans the non-whitespace-led remainder `r`
  for the shortest non-empty capture — but when that scan fails the
  middle `\s*` backtracks, and the only way any shorter run can
  succeed is a capture of whitespace with `r` itself beginning with
  `-->` (so `w` must be non-empty).  The captured group is then a
  whitespace character and strips to `""` — Python accepts
  whitespace-only locators such as `<!-- REF: -->`, resetting the
  reference to the empty string.

The captured group is stripped in all cases. -/

/-- Drop leading whitespace characters (the regex class `\s`). -/
def dropWS (cs : List Char) : List Char :=
  cs.dropWhile Char.isWhitespace

/-- Does the character list begin with the literal `-->` ? -/
def startsArrow (cs : List Char) : Bool :=
  cs.take 3 = ['-', '-', '>']

/-- Lazy scan for the regex tail `(.+?)\s*-->`: grow the capture one
character at a time and stop as soon as the remainder, with leading
whitespace dropped, begins with `-->`. -/
def refLazy (acc : List Char) : List Char → Option (List Char)
  | [] => none
  | c :: rest =>
    if startsArrow (dropWS rest) then some (acc ++ [c])
    else refLazy (acc ++ [c]) rest

/-- The reference-marker match: `some captured` when the line begins
with a `<!-- REF: ... -->` marker, `none` otherwise.  The `none` arm of
the lazy scan implements the backtracking of the middle `\s*`: with at
least one whitespace character available and the non-whitespace
remainder beginning with `-->`, the group captures whitespace and the
stripped result is `""`. -/
def refMatch (line : String) : Option String :=
  let cs := line.data
  if cs.take 4 = ['<', '!', '-', '-'] then
    let cs1 := dropWS (cs.drop 4)
    if (cs1.take 4).map Char.toLower = ['r', 'e', 'f', ':'] then
      let s := cs1.drop 4
      let r := dropWS s
      match refLazy [] r with
      | some cap => some (pyStrip (String.mk cap))
      | none => if s ≠ r ∧ startsArrow r then some "" else none
    else none
  else none

/-! ## Paragraph splitting

`process_chapter_file` joins `lines[1:]`, strips the result and splits
it with `re.split(r'\n\s*\n', ...)`, keeping non-empty stripped blocks
(`parse_paragraphs`); each block is then re-split into its lines.  At
line granularity this is: group the maximal runs of non-blank lines,
where a blank line is one that strips to the empty string; blank runs
separate blocks and leading/trailing blank lines disappear. -/

/-- Worker for `splitBlocks`; `acc` holds the current run in reverse. -/
def splitBlocksGo (acc : List String) : List String → List (List String)
  | [] => if acc.isEmpty then [] else [acc.reverse]
  | l :: rest =>
    if pyStrip l = "" then
      if acc.isEmpty then splitBlocksGo [] rest
      else acc.reverse :: splitBlocksGo [] rest
    else splitBlocksGo (l :: acc) rest

/-- `parse_paragraphs` at line granularity: the paragraph blocks of the
chapter body. -/
def splitBlocks (lines : List String) : List (List String) :=
  splitBlocksGo [] lines

/-! ## The per-chapter segmentation loop (lines 151-204 of the source) -/

/-- The inner `for local_idx, sent in enumerate(sentence_texts, start=1)`
loop: build one Sentence Record per segmented sentence of a line,
post-incrementing the global counter.  Returns the records and the new
counter value. -/
def mkSentenceRecs (book_code language : String)
    (subbook_num chapter_number para_index : Nat) (ref : String) :
    List String → Nat → Nat → List Sentence × Nat
  | [], _, g => ([], g)
  | sent :: rest, idx, g =>
    let s : Sentence :=
      { sentenceIndex := idx
        globalSentenceIndex := g
        reference := ref
        text := pyStrip sent
        audioFile := create_audio_filename g book_code subbook_num
          chapter_number para_index idx language }
    let r := mkSentenceRecs book_code language subbook_num chapter_number
      para_index ref rest (idx + 1) (g + 1)
    (s :: r.1, r.2)

/-- The `for line in para_lines` loop: strip the line, skip it when
blank, record a reference marker (which yields no sentence and persists
until superseded), otherwise segment the line and emit its Sentence
Records.  Returns the records, the reference in force afterwards, and
the new counter value. -/
def processParaLines (nlp : String → List String)
    (language book_code : String)
    (subbook_num chapter_number para_index : Nat) :
    List String → String → Nat → List Sentence × String × Nat
  | [], ref, g => ([], ref, g)
  | l :: rest, ref, g =>
    let line := pyStrip l
    if line = "" then
      processParaLines nlp language book_code subbook_num chapter_number
        para_index rest ref g
    else
      match refMatch line with
      | some r =>
        processParaLines nlp language book_code subbook_num chapter_number
          para_index rest r g
      | none =>
        let texts := parse_sentences line nlp
        let mk := mkSentenceRecs book_code language subbook_num
          chapter_number para_index ref texts 1 g
        let r := processParaLines nlp language book_code subbook_num
          chapter_number para_index rest ref mk.2
        (mk.1 ++ r.1, r.2)

/-- The `for para_index, para_text in enumerate(paragraphs_text, start=1)`
loop: process each paragraph block, keeping the Paragraph Record only
when it has at least one sentence (line 199 of the source) while the
block position `para_index` advances regardless; the current reference
carries over from one block to the next. -/
def processParas (nlp : String → List String)
    (language book_code : String) (subbook_num chapter_number : Nat) :
    List (List String) → Nat → String → Nat → List Paragraph × Nat
  | [], _, _, g => ([], g)
  | p :: ps, idx, ref, g =>
    let pr := processParaLines nlp language book_code subbook_num
      chapter_number idx p ref g
    let rest := processParas nlp language book_code subbook_num
      chapter_number ps (idx + 1) pr.2.1 pr.2.2
    (if pr.1.isEmpty then rest.1
     else { paragraphIndex := idx, sentences := pr.1 } :: rest.1,
     rest.2)

/-! ## Chapter files and the whole-book run -/

/-- `int(chapter_num_match.group(1))` for
`re.search(r'chapter(\d+)\.txt$', name, re.IGNORECASE)`, else `0`. -/
def digitsToNat (ds : List Char) : Nat :=
  ds.foldl (fun n c => n * 10 + (c.toNat - 48)) 0

/-- The chapter number parsed from the chapter file name: the file name
must end (case-insensitively) in `chapter<digits>.txt`; the maximal
trailing digit run before `.txt` is the number; otherwise `0`. -/
def chapterNumOf (name : String) : Nat :=
  let cs := name.data.map Char.toLower
  if cs.length ≥ 4 ∧ cs.drop (cs.length - 4) = ['.', 't', 'x', 't'] then
    let stem := cs.take (cs.length - 4)
    let rds := stem.reverse.takeWhile Char.isDigit
    let pre := stem.take (stem.length - rds.length)
    if rds ≠ [] ∧ pre.length ≥ 7 ∧
        pre.drop (pre.length - 7) = ['c', 'h', 'a', 'p', 't', 'e', 'r'] then
      digitsToNat rds.reverse
    else 0
  else 0

/-- The outcome of `open(chapter_file).readlines()`: an exception, an
empty file, or the raw first line (the title) plus the remaining raw
body lines. -/
inductive ChapterRead where
  | failed : ChapterRead
  | empty : ChapterRead
  | content (firstLine : String) (body : List String) : ChapterRead
deriving DecidableEq, Inhabited

/-- A chapter file: its file name and what reading it produced. -/
structure ChapterFile where
  name : String
  read : ChapterRead
deriving DecidableEq, Inhabited

/-- `process_chapter_file` from `5-spacy_sentence_parser.py`: `none`
(and an untouched counter) for an unreadable or empty file; otherwise
the Chapter Record, with the title taken from the stripped first line,
the chapter number parsed from the file name, the body split into
paragraph blocks, and the chapter-scoped reference initialized to the
empty string. -/
def process_chapter_file (nlp : String → List String)
    (language book_code : String) (subbook_num : Nat)
    (file : ChapterFile) (g : Nat) : Option Chapter × Nat :=
  match file.read with
  | .failed => (none, g)
  | .empty => (none, g)
  | .content firstLine body =>
    let chapter_number := chapterNumOf file.name
    let paras := splitBlocks body
    let pr := processParas nlp language book_code subbook_num
      chapter_number paras 1 "" g
    (some { language := language
            chapterNumber := chapter_number
            chapterTitle := title_case (pyStrip firstLine)
            paragraphs := pr.1 },
     pr.2)

/-- The `for chapter_file in chapter_files` loop of
`process_all_chapter_files`: thread the shared counter through every
chapter file (each paired with its subbook number), skipping files for
which `process_chapter_file` returned `None` and collecting the written
Chapter Records in order. -/
def processAllGo (nlp : String → List String)
    (language book_code : String) :
    List (Nat × ChapterFile) → Nat → List Chapter × Nat
  | [], g => ([], g)
  | (sb, f) :: fs, g =>
    let r := process_chapter_file nlp language book_code sb f g
    let rest := processAllGo nlp language book_code fs r.2
    (match r.1 with
     | none => rest.1
     | some c => c :: rest.1,
     rest.2)

/-- `process_all_chapter_files`: one full-book run, with the shared
global counter initialized to 1. -/
def process_all_chapter_files (nlp : String → List String)
    (language book_code : String) (files : List (Nat × ChapterFile)) :
    List Chapter × Nat :=
  processAllGo nlp language book_code files 1

/-! ## Discovery order of chapter files

`sorted(base_input_dir.rglob("chapter*.txt"))` orders the discovered
paths lexicographically by their path string.  For files in one
directory this is the lexicographic (code-point) order of the file
names.  `run_book_single_dir` models a flat book: the default subbook
(number 1) and the sorted file names. -/

/-- Code-point lexicographic order on character lists. -/
def charsLe : List Char → List Char → Bool
  | [], _ => true
  | _ :: _, [] => false
  | a :: as, b :: bs => if a = b then charsLe as bs else a.toNat < b.toNat

/-- Lexicographic order on file names (Python's string comparison). -/
def nameLe (a b : ChapterFile) : Bool := charsLe a.name.data b.name.data

/-- Stable insertion of a file into a name-sorted list. -/
def insertByName (f : ChapterFile) : List ChapterFile → List ChapterFile
  | [] => [f]
  | x :: xs => if nameLe f x then f :: x :: xs else x :: insertByName f xs

/-- Stable sort of chapter files by file name (Python's `sorted`). -/
def sortFilesByName : List ChapterFile → List ChapterFile
  | [] => []
  | x :: xs => insertByName x (sortFilesByName xs)

/-- A whole-book run over the chapter files of a single (default
subbook) directory, processed in sorted name order. -/
def run_book_single_dir (nlp : String → List String)
    (language book_code : String) (files : List ChapterFile) :
    List Chapter × Nat :=
  process_all_chapter_files nlp language book_code
    ((sortFilesByName files).map (fun f => (1, f)))

/-! ## Flattened views of the output -/

/-- All Sentence Records of a Chapter Record, in document order. -/
def chapterSentences (c : Chapter) : List Sentence :=
  (c.paragraphs.map Paragraph.sentences).flatten

/-- All Sentence Records of a run, in emission order. -/
def runSentences (cs : List Chapter) : List Sentence :=
  (cs.map chapterSentences).flatten

/-- Does a paragraph block contain at least one sentence-bearing line
(non-blank and not a reference marker)?  Such a block is exactly one
the engine keeps. -/
def hasTextLine (lines : List String) : Bool :=
  lines.any (fun l => pyStrip l ≠ "" ∧ (refMatch (pyStrip l)).isNone)

/-- Specification of the reference carry-forward policy, following the
spec's words: scanning the lines in order with a current reference,
a marker line updates the reference and emits nothing; every sentence
of any other non-blank line carries the reference in force.  Returns
the per-sentence reference strings in emission order. -/
def referenceSpec (nlp : String → List String) :
    String → List String → List String
  | _, [] => []
  | ref, l :: rest =>
    let line := pyStrip l
    if line = "" then referenceSpec nlp ref rest
    else
      match refMatch line with
      | some r => referenceSpec nlp r rest
      | none =>
        List.replicate (parse_sentences line nlp).length ref ++
          referenceSpec nlp ref rest

/-- The reference left in force after scanning a list of lines. -/
def lastRef : String → List String → String
  | ref, [] => ref
  | ref, l :: rest =>
    let line := pyStrip l
    if line = "" then lastRef ref rest
    else
      match refMatch line with
      | some r => lastRef r rest
      | none => lastRef ref rest

/-! ## The Chapter Extractor (`4-chapter_subbook_extraction.py`)

`extract_chapters` scans the book text line by line.  The two marker
regexes (`<!-- SUBBOOK: ... -->`, `<!-- CHAPTER: ... -->`) classify each
line; the captured titles are already stripped.  The classification is
represented by `BLine`; body lines keep their raw text (the code appends
the original, unstripped line). -/

/-- A classified line of the marked-up book text. -/
inductive BLine where
  | subbook (title : String) : BLine
  | chapter (title : String) : BLine
  | body (raw : String) : BLine
deriving DecidableEq, Inhabited

/-- Is the line a `CHAPTER` marker? -/
def isChapterB : BLine → Bool
  | .chapter _ => true
  | _ => false

/-- Is the line a `SUBBOOK` marker? -/
def isSubbookB : BLine → Bool
  | .subbook _ => true
  | _ => false

/-- A chapter file written by `write_current_chapter`: the directory it
went to (`0` = the output root, `i ≥ 1` = the i-th subbook directory),
the chapter title and the accumulated body lines.  Per-directory chapter
numbers follow from the emission order (`get_chapter_number` counts the
files already present). -/
structure Emitted where
  dir : Nat
  title : String
  lines : List String
deriving DecidableEq, Inhabited

/-- `write_current_chapter`: nothing is written when the title is empty
or no lines were accumulated. -/
def emitChapter (dir : Nat) (title : String) (lines : List String)
    (acc : List Emitted) : List Emitted :=
  if title = "" ∨ lines.isEmpty then acc
  else acc ++ [{ dir := dir, title := title, lines := lines }]

/-- The scanning loop of `extract_chapters`.  State: the current output
directory index, the chapter in progress (`none` before the first
`CHAPTER` marker), the accumulated chapter lines, the
`subbook_detected` flag, and the chapters written so far.  A flush
(`if current_chapter is not None and chapter_lines:`) happens at a
`SUBBOOK` marker (also clearing the chapter in progress), at a
`CHAPTER` marker (keeping the accumulation empty for the new chapter),
and once more after the last line. -/
def extractGo : List BLine → Nat → Option String → List String → Bool →
    List Emitted → List Emitted × Bool
  | [], dir, cur, ls, sb, acc =>
    (match cur with
     | some t => if ls.isEmpty then acc else emitChapter dir t ls acc
     | none => acc,
     sb)
  | .subbook _ :: rest, dir, cur, ls, _, acc =>
    (match cur with
     | some t =>
       if ls.isEmpty then extractGo rest (dir + 1) cur ls true acc
       else extractGo rest (dir + 1) none [] true (emitChapter dir t ls acc)
     | none => extractGo rest (dir + 1) cur ls true acc)
  | .chapter t :: rest, dir, cur, ls, sb, acc =>
    (match cur with
     | some t0 =>
       if ls.isEmpty then extractGo rest dir (some t) ls sb acc
       else extractGo rest dir (some t) [] sb (emitChapter dir t0 ls acc)
     | none => extractGo rest dir (some t) ls sb acc)
  | .body raw :: rest, dir, cur, ls, sb, acc =>
    (match cur with
     | some _ => extractGo rest dir cur (ls ++ [raw]) sb acc
     | none => extractGo rest dir cur ls sb acc)

/-- `extract_chapters`: scan the whole text from the initial state and
return the written chapter files together with the
`subbook_detected` flag. -/
def extract_chapters (input : List BLine) : List Emitted × Bool :=
  extractGo input 0 none [] false []

/-! ## The Translator (`7-translator.py`)

Python mutates sentence dicts in place, so sentence objects are
modelled as heap cells (`THeap`) addressed by position, and a chapter
is a tree of addresses (`ChapterRef`).  The deep copy
`json.loads(json.dumps(native_content))` allocates fresh cells holding
the same data.  The OpenAI call is the oracle parameter
`tr : String → String → Option String` (`none` = the exception path).
The `isinstance(text_field, dict)` branch of `process_sentence` handles
a legacy shape in which `text` is a per-language map; the records the
Segmentation Engine produces always store a string, which is the case
modelled here. -/

/-- The heap of sentence objects. -/
abbrev THeap := List Sentence

/-- Read the sentence object at an address. -/
def readS (h : THeap) (a : Nat) : Sentence := h.getD a default

/-- In-place update of the sentence object at an address. -/
def updateAt (f : Sentence → Sentence) (h : THeap) (a : Nat) : THeap :=
  h.set a (f (readS h a))

/-- Apply an in-place per-sentence update at each address in turn. -/
def passOver (f : Sentence → Sentence) (h : THeap) (as : List Nat) : THeap :=
  as.foldl (updateAt f) h

/-- A chapter content JSON as an object tree: scalar fields by value,
sentences by heap address, paragraphs as
(`paragraphIndex`, sentence addresses). -/
structure ChapterRef where
  language : String
  chapterNumber : Nat
  chapterTitle : String
  paragraphs : List (Nat × List Nat)
deriving DecidableEq, Inhabited

/-- All sentence addresses of a chapter, in document order. -/
def flatAddrs (ps : List (Nat × List Nat)) : List Nat :=
  (ps.map (fun p => p.2)).flatten

/-- The paragraph skeleton: each paragraph's index and sentence count. -/
def paraSkeleton (ps : List (Nat × List Nat)) : List (Nat × Nat) :=
  ps.map (fun p => (p.1, p.2.length))

/-- Renumber the sentence addresses of a paragraph list with fresh
consecutive addresses starting at `base`. -/
def renumberParas (base : Nat) : List (Nat × List Nat) → List (Nat × List Nat)
  | [] => []
  | (pi, as) :: rest =>
    (pi, List.range' base as.length) :: renumberParas (base + as.length) rest

/-- `json.loads(json.dumps(native_content))`: allocate a fresh cell for
every sentence of the chapter (copying its data) and return the chapter
tree re-addressed to the fresh cells. -/
def deepCopyChapter (h : THeap) (c : ChapterRef) : THeap × ChapterRef :=
  (h ++ (flatAddrs c.paragraphs).map (readS h),
   { c with paragraphs := renumberParas h.length c.paragraphs })

/-- The `language_map` defined in `main()` of `7-translator.py`. -/
def language_map : List (String × String) :=
  [("af-ZA", "Afrikaans"), ("ar-SA", "Arabic"), ("hy-AM", "Armenian"),
   ("az-AZ", "Azerbaijani"), ("be-BY", "Belarusian"), ("bs-BA", "Bosnian"),
   ("bg-BG", "Bulgarian"), ("ca-ES", "Catalan"), ("zh-CN", "Chinese"),
   ("hr-HR", "Croatian"), ("cs-CZ", "Czech"), ("da-DK", "Danish"),
   ("nl-NL", "Dutch"), ("en-US", "English"), ("et-EE", "Estonian"),
   ("fi-FI", "Finnish"), ("fr-FR", "French"), ("gl-ES", "Galician"),
   ("de-DE", "German"), ("el-GR", "Greek"), ("he-IL", "Hebrew"),
   ("hi-IN", "Hindi"), ("hu-HU", "Hungarian"), ("is-IS", "Icelandic"),
   ("id-ID", "Indonesian"), ("it-IT", "Italian"), ("ja-JP", "Japanese"),
   ("kn-IN", "Kannada"), ("kk-KZ", "Kazakh"), ("ko-KR", "Korean"),
   ("lv-LV", "Latvian"), ("lt-LT", "Lithuanian"), ("mk-MK", "Macedonian"),
   ("ms-MY", "Malay"), ("mr-IN", "Marathi"), ("mi-NZ", "Maori"),
   ("ne-NP", "Nepali"), ("nb-NO", "Norwegian"), ("fa-IR", "Persian"),
   ("pl-PL", "Polish"), ("pt-PT", "Portuguese"), ("ro-RO", "Romanian"),
   ("ru-RU", "Russian"), ("sr-RS", "Serbian"), ("sk-SK", "Slovak"),
   ("sl-SI", "Slovenian"), ("es-ES", "Spanish"), ("sw-KE", "Swahili"),
   ("sv-SE", "Swedish"), ("tl-PH", "Tagalog"), ("ta-IN", "Tamil"),
   ("th-TH", "Thai"), ("tr-TR", "Turkish"), ("uk-UA", "Ukrainian"),
   ("ur-PK", "Urdu"), ("vi-VN", "Vietnamese"), ("cy-GB", "Welsh")]

/-- `translate_text`: the oracle's answer, stripped; the exception path
returns `""`. -/
def translate_text (tr : String → String → Option String)
    (text target_language : String) : String :=
  match tr text target_language with
  | some t => pyStrip t
  | none => ""

/-- `re.sub(rf"_{native}\.aac$", f"_{target}.aac", audio)`: replace the
trailing `_<native>.aac` by `_<target>.aac` when present. -/
def replaceLangSuffix (native target audio : String) : String :=
  let a := audio.data
  let suffix := ("_" ++ native ++ ".aac").data
  if suffix.length ≤ a.length ∧ a.drop (a.length - suffix.length) = suffix then
    String.mk (a.take (a.length - suffix.length)) ++ "_" ++ target ++ ".aac"
  else audio

/-- `process_sentence` from `7-translator.py`: skip (return the object
unchanged) when the native text is blank or the target language is not
in the map; otherwise replace `text` by the translation of the native
text and rewrite the `audioFile` language suffix. -/
def process_sentence (tr : String → String → Option String)
    (lmap : List (String × String)) (native target : String)
    (s : Sentence) : Sentence :=
  let native_text := pyStrip s.text
  if native_text = "" then s
  else
    match lmap.lookup target with
    | none => s
    | some target_language_name =>
      { s with
        text := translate_text tr native_text target_language_name
        audioFile := replaceLangSuffix native target s.audioFile }

/-- The unconditional `audioFile` rewrite performed by the second pass
of `process_json_file` (lines 173-177 of the source). -/
def update_audio_field (native target : String) (s : Sentence) : Sentence :=
  { s with audioFile := replaceLangSuffix native target s.audioFile }

/-- `translate_content`: translate every sentence object of the chapter
in place, in document order. -/
def translate_content (tr : String → String → Option String)
    (lmap : List (String × String)) (native target : String)
    (h : THeap) (c : ChapterRef) : THeap :=
  passOver (process_sentence tr lmap native target) h (flatAddrs c.paragraphs)

/-- The per-sentence data transformation one full target pass applies:
`process_sentence` followed by the unconditional audio rewrite. -/
def translateCell (tr : String → String → Option String)
    (lmap : List (String × String)) (native target : String)
    (s : Sentence) : Sentence :=
  update_audio_field native target (process_sentence tr lmap native target s)

/-- The `for target_language in target_language_codes` loop of
`process_json_file`: for each target, deep-copy the native chapter,
set its `language`, translate it in place, run the second audio pass,
and record the output tree. -/
def processTargetsGo (tr : String → String → Option String)
    (lmap : List (String × String)) (native : String) :
    List String → THeap → ChapterRef → THeap × List (String × ChapterRef)
  | [], h, _ => (h, [])
  | t :: ts, h, c =>
    let hc := deepCopyChapter h c
    let c2 := { hc.2 with language := t }
    let h2 := translate_content tr lmap native t hc.1 c2
    let h3 := passOver (update_audio_field native t) h2 (flatAddrs c2.paragraphs)
    let r := processTargetsGo tr lmap native ts h3 c
    (r.1, (t, c2) :: r.2)

/-- `process_json_file` (in-memory part): produce the translated object
trees for all target languages from one native chapter tree. -/
def process_json_file (tr : String → String → Option String)
    (lmap : List (String × String)) (native : String)
    (targets : List String) (h : THeap) (c : ChapterRef) :
    THeap × List (String × ChapterRef) :=
  processTargetsGo tr lmap native targets h c

/-! ## Concrete inputs used to instantiate theorems with hypotheses -/

/-- A trivial external segmenter: every line is one sentence. -/
def idSeg : String → List String := fun s => [s]

/-- A one-sentence chapter file (for the audio-filename claim). -/
def c4file : ChapterFile :=
  { name := "chapter3.txt", read := .content "intro" ["Hello."] }

/-- The Chapter Record `c4file` yields at counter value 5. -/
def c4chapter : Chapter :=
  { language := "en-US", chapterNumber := 3, chapterTitle := "Intro",
    paragraphs :=
      [{ paragraphIndex := 1,
         sentences :=
           [{ sentenceIndex := 1, globalSentenceIndex := 5, reference := "",
              text := "Hello.",
              audioFile := "0000005_BOOKM_S1_C3_P1_S1_en-US.aac" }] }] }

/-- The single paragraph of `c4chapter`. -/
def c4para : Paragraph :=
  { paragraphIndex := 1,
    sentences :=
      [{ sentenceIndex := 1, globalSentenceIndex := 5, reference := "",
         text := "Hello.",
         audioFile := "0000005_BOOKM_S1_C3_P1_S1_en-US.aac" }] }

/-- The single sentence of `c4chapter`. -/
def c4sentence : Sentence :=
  { sentenceIndex := 1, globalSentenceIndex := 5, reference := "",
    text := "Hello.", audioFile := "0000005_BOOKM_S1_C3_P1_S1_en-US.aac" }

/-- A chapter whose first paragraph block is only a reference marker:
the block is dropped, so the emitted `paragraphIndex` values have a
gap. -/
def c5file : ChapterFile :=
  { name := "chapter1.txt",
    read := .content "Title" ["<!-- REF: 1:1 -->", "", "Hello."] }

/-- A chapter with a marker-only block and a text block (for the
empty-paragraph-elision claim). -/
def c6file : ChapterFile :=
  { name := "chapter1.txt",
    read := .content "Title" ["<!-- REF: 2:7 -->", "", "World."] }

/-- The Chapter Record `c6file` yields at counter value 1. -/
def c6chapter : Chapter :=
  { language := "en-US", chapterNumber := 1, chapterTitle := "Title",
    paragraphs :=
      [{ paragraphIndex := 2,
         sentences :=
           [{ sentenceIndex := 1, globalSentenceIndex := 1,
              reference := "2:7", text := "World.",
              audioFile := "0000001_BOOKM_S1_C1_P2_S1_en-US.aac" }] }] }

/-- The single emitted paragraph of `c6chapter`. -/
def c6para : Paragraph :=
  { paragraphIndex := 2,
    sentences :=
      [{ sentenceIndex := 1, globalSentenceIndex := 1,
         reference := "2:7", text := "World.",
         audioFile := "0000001_BOOKM_S1_C1_P2_S1_en-US.aac" }] }

/-- Two chapter files of one flat book whose numeric order disagrees
with the lexicographic file-name order (`"chapter10.txt"` sorts before
`"chapter2.txt"`). -/
def c3files : List ChapterFile :=
  [{ name := "chapter2.txt", read := .content "Two" ["One."] },
   { name := "chapter10.txt", read := .content "Ten" ["Two."] }]

/-- The run over `c3files`. -/
def c3run : List Chapter × Nat :=
  run_book_single_dir idSeg "en-US" "BOOKM" c3files

/-- A two-cell native heap for the translator witness. -/
def c8heap : THeap :=
  [{ sentenceIndex := 1, globalSentenceIndex := 1, reference := "",
     text := "Hello.", audioFile := "0000001_BOOKM_S1_C1_P1_S1_en-US.aac" },
   { sentenceIndex := 2, globalSentenceIndex := 2, reference := "",
     text := "World.", audioFile := "0000002_BOOKM_S1_C1_P1_S2_en-US.aac" }]

/-- The native chapter tree over `c8heap`. -/
def c8chapter : ChapterRef :=
  { language := "en-US", chapterNumber := 1, chapterTitle := "Intro",
    paragraphs := [(1, [0, 1])] }

/-- A deterministic translation oracle for the witnesses. -/
def c8oracle : String → String → Option String :=
  fun s _ => some ("T:" ++ s)

/-- A sentence with whitespace-only text (for the blank-text claim). -/
def c10sentence : Sentence :=
  { sentenceIndex := 3, globalSentenceIndex := 7, reference := "1:4",
    text := "  ", audioFile := "0000007_BOOKM_S1_C2_P1_S3_en-US.aac" }

/-- A sentence with ordinary text (for the sibling clause of the
blank-text claim). -/
def c10sibling : Sentence :=
  { sentenceIndex := 4, globalSentenceIndex := 8, reference := "1:4",
    text := "Good.", audioFile := "0000008_BOOKM_S1_C2_P1_S4_en-US.aac" }

/-- A preamble with a body line and a subbook marker but no chapter
marker (for the extractor claim). -/
def c9pre : List BLine :=
  [.body "stray preamble line", .subbook "Part One"]

/-- The remainder of the extractor input. -/
def c9rest : List BLine :=
  [.chapter "One", .body "First line."]

/-! ## Helper lemmas: the sentence loop -/

theorem parse_sentences_ne_nil (line : String) (nlp : String → List String) :
    parse_sentences line nlp ≠ [] := by
  simp only [parse_sentences]
  split
  · simp
  · next h => exact fun hnil => h (by rw [hnil]; rfl)

/-! Unfolding equations for the three kinds of line. -/

theorem processParaLines_cons_blank (nlp : String → List String)
    (lang bc : String) (sb cn pi : Nat) (l : String) (rest : List String)
    (ref : String) (g : Nat) (hb : pyStrip l = "") :
    processParaLines nlp lang bc sb cn pi (l :: rest) ref g
      = processParaLines nlp lang bc sb cn pi rest ref g := by
  simp [processParaLines, hb]

theorem processParaLines_cons_marker (nlp : String → List String)
    (lang bc : String) (sb cn pi : Nat) (l : String) (rest : List String)
    (ref r : String) (g : Nat) (hb : pyStrip l ≠ "")
    (hr : refMatch (pyStrip l) = some r) :
    processParaLines nlp lang bc sb cn pi (l :: rest) ref g
      = processParaLines nlp lang bc sb cn pi rest r g := by
  simp [processParaLines, hb, hr]

theorem processParaLines_cons_text (nlp : String → List String)
    (lang bc : String) (sb cn pi : Nat) (l : String) (rest : List String)
    (ref : String) (g : Nat) (hb : pyStrip l ≠ "")
    (hr : refMatch (pyStrip l) = none) :
    processParaLines nlp lang bc sb cn pi (l :: rest) ref g
      = ((mkSentenceRecs bc lang sb cn pi ref (parse_sentences (pyStrip l) nlp) 1 g).1
            ++ (processParaLines nlp lang bc sb cn pi rest ref
                  (mkSentenceRecs bc lang sb cn pi ref
                    (parse_sentences (pyStrip l) nlp) 1 g).2).1,
          (processParaLines nlp lang bc sb cn pi rest ref
            (mkSentenceRecs bc lang sb cn pi ref
              (parse_sentences (pyStrip l) nlp) 1 g).2).2) := by
  simp [processParaLines, hb, hr]

theorem referenceSpec_cons_blank (nlp : String → List String)
    (l : String) (rest : List String) (ref : String) (hb : pyStrip l = "") :
    referenceSpec nlp ref (l :: rest) = referenceSpec nlp ref rest := by
  simp [referenceSpec, hb]

theorem referenceSpec_cons_marker (nlp : String → List String)
    (l : String) (rest : List String) (ref r : String) (hb : pyStrip l ≠ "")
    (hr : refMatch (pyStrip l) = some r) :
    referenceSpec nlp ref (l :: rest) = referenceSpec nlp r rest := by
  simp [referenceSpec, hb, hr]

theorem referenceSpec_cons_text (nlp : String → List String)
    (l : String) (rest : List String) (ref : String) (hb : pyStrip l ≠ "")
    (hr : refMatch (pyStrip l) = none) :
    referenceSpec nlp ref (l :: rest)
      = List.replicate (parse_sentences (pyStrip l) nlp).length ref ++
          referenceSpec nlp ref rest := by
  simp [referenceSpec, hb, hr]

theorem lastRef_cons_blank (l : String) (rest : List String) (ref : String)
    (hb : pyStrip l = "") : lastRef ref (l :: rest) = lastRef ref rest := by
  simp [lastRef, hb]

theorem lastRef_cons_marker (l : String) (rest : List String) (ref r : String)
    (hb : pyStrip l ≠ "") (hr : refMatch (pyStrip l) = some r) :
    lastRef ref (l :: rest) = lastRef r rest := by
  simp [lastRef, hb, hr]

theorem lastRef_cons_text (l : String) (rest : List String) (ref : String)
    (hb : pyStrip l ≠ "") (hr : refMatch (pyStrip l) = none) :
    lastRef ref (l :: rest) = lastRef ref rest := by
  simp [lastRef, hb, hr]

theorem mkSentenceRecs_snd (bc lang : String) (sb cn pi : Nat) (ref : String) :
    ∀ (texts : List String) (idx g : Nat),
      (mkSentenceRecs bc lang sb cn pi ref texts idx g).2 = g + texts.length
  | [], _, _ => rfl
  | t :: ts, idx, g => by
    simp [mkSentenceRecs, mkSentenceRecs_snd bc lang sb cn pi ref ts (idx + 1) (g + 1)]
    omega

theorem mkSentenceRecs_length (bc lang : String) (sb cn pi : Nat) (ref : String) :
    ∀ (texts : List String) (idx g : Nat),
      (mkSentenceRecs bc lang sb cn pi ref texts idx g).1.length = texts.length
  | [], _, _ => rfl
  | t :: ts, idx, g => by
    simp [mkSentenceRecs, mkSentenceRecs_length bc lang sb cn pi ref ts (idx + 1) (g + 1)]

theorem mkSentenceRecs_globals (bc lang : String) (sb cn pi : Nat) (ref : String) :
    ∀ (texts : List String) (idx g : Nat),
      (mkSentenceRecs bc lang sb cn pi ref texts idx g).1.map
          (fun s => s.globalSentenceIndex)
        = List.range' g texts.length
  | [], _, _ => rfl
  | t :: ts, idx, g => by
    simp [mkSentenceRecs, List.range'_succ,
      mkSentenceRecs_globals bc lang sb cn pi ref ts (idx + 1) (g + 1)]

theorem mkSentenceRecs_refmap (bc lang : String) (sb cn pi : Nat) (ref : String) :
    ∀ (texts : List String) (idx g : Nat),
      (mkSentenceRecs bc lang sb cn pi ref texts idx g).1.map
          (fun s => s.reference)
        = List.replicate texts.length ref
  | [], _, _ => rfl
  | t :: ts, idx, g => by
    simp [mkSentenceRecs, List.replicate_succ,
      mkSentenceRecs_refmap bc lang sb cn pi ref ts (idx + 1) (g + 1)]

theorem mkSentenceRecs_audio (bc lang : String) (sb cn pi : Nat) (ref : String) :
    ∀ (texts : List String) (idx g : Nat),
      ∀ s ∈ (mkSentenceRecs bc lang sb cn pi ref texts idx g).1,
        s.audioFile = create_audio_filename s.globalSentenceIndex bc sb cn pi
          s.sentenceIndex lang
  | [], _, _ => by intro s hs; simp [mkSentenceRecs] at hs
  | t :: ts, idx, g => by
    intro s hs
    simp only [mkSentenceRecs, List.mem_cons] at hs
    rcases hs with h | h
    · subst h; rfl
    · exact mkSentenceRecs_audio bc lang sb cn pi ref ts (idx + 1) (g + 1) s h

/-! ## Helper lemmas: the per-line loop -/

theorem processParaLines_snd (nlp : String → List String)
    (lang bc : String) (sb cn pi : Nat) :
    ∀ (ls : List String) (ref : String) (g : Nat),
      (processParaLines nlp lang bc sb cn pi ls ref g).2.2
        = g + (processParaLines nlp lang bc sb cn pi ls ref g).1.length
  | [], _, _ => rfl
  | l :: rest, ref, g => by
    by_cases hb : pyStrip l = ""
    · rw [processParaLines_cons_blank nlp lang bc sb cn pi l rest ref g hb]
      exact processParaLines_snd nlp lang bc sb cn pi rest ref g
    · cases hr : refMatch (pyStrip l) with
      | some r =>
        rw [processParaLines_cons_marker nlp lang bc sb cn pi l rest ref r g hb hr]
        exact processParaLines_snd nlp lang bc sb cn pi rest r g
      | none =>
        rw [processParaLines_cons_text nlp lang bc sb cn pi l rest ref g hb hr]
        have hmk := mkSentenceRecs_snd bc lang sb cn pi ref
          (parse_sentences (pyStrip l) nlp) 1 g
        have hml := mkSentenceRecs_length bc lang sb cn pi ref
          (parse_sentences (pyStrip l) nlp) 1 g
        have ih := processParaLines_snd nlp lang bc sb cn pi rest ref
          (mkSentenceRecs bc lang sb cn pi ref (parse_sentences (pyStrip l) nlp) 1 g).2
        dsimp only
        simp only [List.length_append]
        omega

theorem processParaLines_globals (nlp : String → List String)
    (lang bc : String) (sb cn pi : Nat) :
    ∀ (ls : List String) (ref : String) (g : Nat),
      (processParaLines nlp lang bc sb cn pi ls ref g).1.map
          (fun s => s.globalSentenceIndex)
        = List.range' g (processParaLines nlp lang bc sb cn pi ls ref g).1.length
  | [], _, _ => rfl
  | l :: rest, ref, g => by
    by_cases hb : pyStrip l = ""
    · rw [processParaLines_cons_blank nlp lang bc sb cn pi l rest ref g hb]
      exact processParaLines_globals nlp lang bc sb cn pi rest ref g
    · cases hr : refMatch (pyStrip l) with
      | some r =>
        rw [processParaLines_cons_marker nlp lang bc sb cn pi l rest ref r g hb hr]
        exact processParaLines_globals nlp lang bc sb cn pi rest r g
      | none =>
        rw [processParaLines_cons_text nlp lang bc sb cn pi l rest ref g hb hr]
        have hmk := mkSentenceRecs_snd bc lang sb cn pi ref
          (parse_sentences (pyStrip l) nlp) 1 g
        have hml := mkSentenceRecs_length bc lang sb cn pi ref
          (parse_sentences (pyStrip l) nlp) 1 g
        have hmg := mkSentenceRecs_globals bc lang sb cn pi ref
          (parse_sentences (pyStrip l) nlp) 1 g
        have ih := processParaLines_globals nlp lang bc sb cn pi rest ref
          (mkSentenceRecs bc lang sb cn pi ref (parse_sentences (pyStrip l) nlp) 1 g).2
        simp only [List.map_append, List.length_append]
        rw [hmg, ih, hmk, hml, List.range'_append_1]
        congr 1
        omega

theorem processParaLines_refs (nlp : String → List String)
    (lang bc : String) (sb cn pi : Nat) :
    ∀ (ls : List String) (ref : String) (g : Nat),
      (processParaLines nlp lang bc sb cn pi ls ref g).1.map
          (fun s => s.reference)
        = referenceSpec nlp ref ls
  | [], _, _ => rfl
  | l :: rest, ref, g => by
    by_cases hb : pyStrip l = ""
    · rw [processParaLines_cons_blank nlp lang bc sb cn pi l rest ref g hb,
        referenceSpec_cons_blank nlp l rest ref hb]
      exact processParaLines_refs nlp lang bc sb cn pi rest ref g
    · cases hr : refMatch (pyStrip l) with
      | some r =>
        rw [processParaLines_cons_marker nlp lang bc sb cn pi l rest ref r g hb hr,
          referenceSpec_cons_marker nlp l rest ref r hb hr]
        exact processParaLines_refs nlp lang bc sb cn pi rest r g
      | none =>
        rw [processParaLines_cons_text nlp lang bc sb cn pi l rest ref g hb hr,
          referenceSpec_cons_text nlp l rest ref hb hr]
        have hmr := mkSentenceRecs_refmap bc lang sb cn pi ref
          (parse_sentences (pyStrip l) nlp) 1 g
        have ih := processParaLines_refs nlp lang bc sb cn pi rest ref
          (mkSentenceRecs bc lang sb cn pi ref (parse_sentences (pyStrip l) nlp) 1 g).2
        simp only [List.map_append]
        rw [hmr, ih]

theorem processParaLines_finalRef (nlp : String → List String)
    (lang bc : String) (sb cn pi : Nat) :
    ∀ (ls : List String) (ref : String) (g : Nat),
      (processParaLines nlp lang bc sb cn pi ls ref g).2.1 = lastRef ref ls
  | [], _, _ => rfl
  | l :: rest, ref, g => by
    by_cases hb : pyStrip l = ""
    · rw [processParaLines_cons_blank nlp lang bc sb cn pi l rest ref g hb,
        lastRef_cons_blank l rest ref hb]
      exact processParaLines_finalRef nlp lang bc sb cn pi rest ref g
    · cases hr : refMatch (pyStrip l) with
      | some r =>
        rw [processParaLines_cons_marker nlp lang bc sb cn pi l rest ref r g hb hr,
          lastRef_cons_marker l rest ref r hb hr]
        exact processParaLines_finalRef nlp lang bc sb cn pi rest r g
      | none =>
        rw [processParaLines_cons_text nlp lang bc sb cn pi l rest ref g hb hr,
          lastRef_cons_text l rest ref hb hr]
        exact processParaLines_finalRef nlp lang bc sb cn pi rest ref
          (mkSentenceRecs bc lang sb cn pi ref (parse_sentences (pyStrip l) nlp) 1 g).2

theorem processParaLines_isEmpty (nlp : String → List String)
    (lang bc : String) (sb cn pi : Nat) :
    ∀ (ls : List String) (ref : String) (g : Nat),
      (processParaLines nlp lang bc sb cn pi ls ref g).1.isEmpty
        = !hasTextLine ls
  | [], _, _ => rfl
  | l :: rest, ref, g => by
    by_cases hb : pyStrip l = ""
    · rw [processParaLines_cons_blank nlp lang bc sb cn pi l rest ref g hb]
      rw [show hasTextLine (l :: rest) = hasTextLine rest by
        simp [hasTextLine, hb]]
      exact processParaLines_isEmpty nlp lang bc sb cn pi rest ref g
    · cases hr : refMatch (pyStrip l) with
      | some r =>
        rw [processParaLines_cons_marker nlp lang bc sb cn pi l rest ref r g hb hr]
        rw [show hasTextLine (l :: rest) = hasTextLine rest by
          simp [hasTextLine, hb, hr]]
        exact processParaLines_isEmpty nlp lang bc sb cn pi rest r g
      | none =>
        rw [processParaLines_cons_text nlp lang bc sb cn pi l rest ref g hb hr]
        have hne : (mkSentenceRecs bc lang sb cn pi ref
            (parse_sentences (pyStrip l) nlp) 1 g).1 ≠ [] := by
          have hl := mkSentenceRecs_length bc lang sb cn pi ref
            (parse_sentences (pyStrip l) nlp) 1 g
          intro h
          rw [h] at hl
          exact parse_sentences_ne_nil (pyStrip l) nlp (List.length_eq_zero.mp hl.symm)
        rw [show hasTextLine (l :: rest) = true by
          simp [hasTextLine, hb, hr, Option.isNone_iff_eq_none]]
        simp [List.isEmpty_iff, hne]

theorem processParaLines_audio (nlp : String → List String)
    (lang bc : String) (sb cn pi : Nat) :
    ∀ (ls : List String) (ref : String) (g : Nat),
      ∀ s ∈ (processParaLines nlp lang bc sb cn pi ls ref g).1,
        s.audioFile = create_audio_filename s.globalSentenceIndex bc sb cn pi
          s.sentenceIndex lang
  | [], _, _ => by intro s hs; simp [processParaLines] at hs
  | l :: rest, ref, g => by
    intro s hs
    by_cases hb : pyStrip l = ""
    · rw [processParaLines_cons_blank nlp lang bc sb cn pi l rest ref g hb] at hs
      exact processParaLines_audio nlp lang bc sb cn pi rest ref g s hs
    · cases hr : refMatch (pyStrip l) with
      | some r =>
        rw [processParaLines_cons_marker nlp lang bc sb cn pi l rest ref r g
          hb hr] at hs
        exact processParaLines_audio nlp lang bc sb cn pi rest r g s hs
      | none =>
        rw [processParaLines_cons_text nlp lang bc sb cn pi l rest ref g
          hb hr] at hs
        simp only [List.mem_append] at hs
        rcases hs with h | h
        · exact mkSentenceRecs_audio bc lang sb cn pi ref
            (parse_sentences (pyStrip l) nlp) 1 g s h
        · exact processParaLines_audio nlp lang bc sb cn pi rest ref
            (mkSentenceRecs bc lang sb cn pi ref (parse_sentences (pyStrip l) nlp) 1 g).2
            s h

/-! ## Helper lemmas: the paragraph loop -/

theorem referenceSpec_append (nlp : String → List String) :
    ∀ (xs ys : List String) (ref : String),
      referenceSpec nlp ref (xs ++ ys)
        = referenceSpec nlp ref xs ++ referenceSpec nlp (lastRef ref xs) ys
  | [], _, _ => by simp [referenceSpec, lastRef]
  | l :: xs, ys, ref => by
    by_cases hb : pyStrip l = ""
    · rw [List.cons_append, referenceSpec_cons_blank nlp l (xs ++ ys) ref hb,
        referenceSpec_cons_blank nlp l xs ref hb, lastRef_cons_blank l xs ref hb]
      exact referenceSpec_append nlp xs ys ref
    · cases hr : refMatch (pyStrip l) with
      | some r =>
        rw [List.cons_append,
          referenceSpec_cons_marker nlp l (xs ++ ys) ref r hb hr,
          referenceSpec_cons_marker nlp l xs ref r hb hr,
          lastRef_cons_marker l xs ref r hb hr]
        exact referenceSpec_append nlp xs ys r
      | none =>
        rw [List.cons_append,
          referenceSpec_cons_text nlp l (xs ++ ys) ref hb hr,
          referenceSpec_cons_text nlp l xs ref hb hr,
          lastRef_cons_text l xs ref hb hr,
          referenceSpec_append nlp xs ys ref, List.append_assoc]

theorem processParas_cons (nlp : String → List String)
    (lang bc : String) (sb cn : Nat) (p : List String)
    (ps : List (List String)) (idx : Nat) (ref : String) (g : Nat) :
    processParas nlp lang bc sb cn (p :: ps) idx ref g
      = (if (processParaLines nlp lang bc sb cn idx p ref g).1.isEmpty then
            (processParas nlp lang bc sb cn ps (idx + 1)
              (processParaLines nlp lang bc sb cn idx p ref g).2.1
              (processParaLines nlp lang bc sb cn idx p ref g).2.2).1
          else
            { paragraphIndex := idx,
              sentences := (processParaLines nlp lang bc sb cn idx p ref g).1 }
              :: (processParas nlp lang bc sb cn ps (idx + 1)
                (processParaLines nlp lang bc sb cn idx p ref g).2.1
                (processParaLines nlp lang bc sb cn idx p ref g).2.2).1,
         (processParas nlp lang bc sb cn ps (idx + 1)
           (processParaLines nlp lang bc sb cn idx p ref g).2.1
           (processParaLines nlp lang bc sb cn idx p ref g).2.2).2) := rfl

theorem processParas_snd (nlp : String → List String)
    (lang bc : String) (sb cn : Nat) :
    ∀ (paras : List (List String)) (idx : Nat) (ref : String) (g : Nat),
      (processParas nlp lang bc sb cn paras idx ref g).2
        = g + (((processParas nlp lang bc sb cn paras idx ref g).1.map
            Paragraph.sentences).flatten).length
  | [], _, _, _ => rfl
  | p :: ps, idx, ref, g => by
    have hpl := processParaLines_snd nlp lang bc sb cn idx p ref g
    have ih := processParas_snd nlp lang bc sb cn ps (idx + 1)
      (processParaLines nlp lang bc sb cn idx p ref g).2.1
      (processParaLines nlp lang bc sb cn idx p ref g).2.2
    rw [processParas_cons]
    by_cases he : (processParaLines nlp lang bc sb cn idx p ref g).1.isEmpty
    · have hnil : (processParaLines nlp lang bc sb cn idx p ref g).1 = [] :=
        List.isEmpty_iff.mp he
      rw [if_pos he]
      dsimp only
      rw [hnil] at hpl
      simp only [List.length_nil, Nat.add_zero] at hpl
      rw [ih, hpl]
    · rw [if_neg he]
      dsimp only
      simp only [List.map_cons, List.flatten_cons, List.length_append]
      omega

theorem processParas_globals (nlp : String → List String)
    (lang bc : String) (sb cn : Nat) :
    ∀ (paras : List (List String)) (idx : Nat) (ref : String) (g : Nat),
      (((processParas nlp lang bc sb cn paras idx ref g).1.map
          Paragraph.sentences).flatten).map (fun s => s.globalSentenceIndex)
        = List.range' g (((processParas nlp lang bc sb cn paras idx
            ref g).1.map Paragraph.sentences).flatten).length
  | [], _, _, _ => rfl
  | p :: ps, idx, ref, g => by
    have hpl := processParaLines_snd nlp lang bc sb cn idx p ref g
    have hpg := processParaLines_globals nlp lang bc sb cn idx p ref g
    have ih := processParas_globals nlp lang bc sb cn ps (idx + 1)
      (processParaLines nlp lang bc sb cn idx p ref g).2.1
      (processParaLines nlp lang bc sb cn idx p ref g).2.2
    rw [processParas_cons]
    by_cases he : (processParaLines nlp lang bc sb cn idx p ref g).1.isEmpty
    · have hnil : (processParaLines nlp lang bc sb cn idx p ref g).1 = [] :=
        List.isEmpty_iff.mp he
      rw [if_pos he]
      dsimp only
      rw [hnil] at hpl
      simp only [List.length_nil, Nat.add_zero] at hpl
      rw [ih, hpl]
    · rw [if_neg he]
      dsimp only
      simp only [List.map_cons, List.flatten_cons, List.map_append,
        List.length_append]
      rw [hpg, ih, hpl, List.range'_append_1]
      congr 1
      omega

theorem processParas_refs (nlp : String → List String)
    (lang bc : String) (sb cn : Nat) :
    ∀ (paras : List (List String)) (idx : Nat) (ref : String) (g : Nat),
      (((processParas nlp lang bc sb cn paras idx ref g).1.map
          Paragraph.sentences).flatten).map (fun s => s.reference)
        = referenceSpec nlp ref paras.flatten
  | [], _, _, _ => rfl
  | p :: ps, idx, ref, g => by
    have hpr := processParaLines_refs nlp lang bc sb cn idx p ref g
    have hpf := processParaLines_finalRef nlp lang bc sb cn idx p ref g
    have ih := processParas_refs nlp lang bc sb cn ps (idx + 1)
      (processParaLines nlp lang bc sb cn idx p ref g).2.1
      (processParaLines nlp lang bc sb cn idx p ref g).2.2
    rw [processParas_cons]
    rw [List.flatten_cons, referenceSpec_append nlp p ps.flatten ref]
    by_cases he : (processParaLines nlp lang bc sb cn idx p ref g).1.isEmpty
    · have hnil : (processParaLines nlp lang bc sb cn idx p ref g).1 = [] :=
        List.isEmpty_iff.mp he
      rw [if_pos he]
      dsimp only
      rw [ih, hpf]
      rw [hnil] at hpr
      simp only [List.map_nil] at hpr
      rw [← hpr]
      simp
    · rw [if_neg he]
      dsimp only
      simp only [List.map_cons, List.flatten_cons, List.map_append]
      rw [hpr, ih, hpf]

theorem processParas_paraIdx (nlp : String → List String)
    (lang bc : String) (sb cn : Nat) :
    ∀ (paras : List (List String)) (idx : Nat) (ref : String) (g : Nat),
      (processParas nlp lang bc sb cn paras idx ref g).1.map
          (fun p => p.paragraphIndex)
        = (((List.range' idx paras.length).zip paras).filter
            (fun x => hasTextLine x.2)).map (fun x => x.1)
  | [], _, _, _ => rfl
  | p :: ps, idx, ref, g => by
    have hpe := processParaLines_isEmpty nlp lang bc sb cn idx p ref g
    have ih := processParas_paraIdx nlp lang bc sb cn ps (idx + 1)
      (processParaLines nlp lang bc sb cn idx p ref g).2.1
      (processParaLines nlp lang bc sb cn idx p ref g).2.2
    rw [processParas_cons]
    rw [List.length_cons, List.range'_succ, List.zip_cons_cons]
    by_cases he : (processParaLines nlp lang bc sb cn idx p ref g).1.isEmpty
    · have ht : hasTextLine p = false := by
        rw [he] at hpe
        cases h : hasTextLine p
        · rfl
        · rw [h] at hpe; exact absurd hpe.symm (by simp)
      rw [if_pos he]
      dsimp only
      simp [List.filter_cons, ht, ih]
    · have ht : hasTextLine p = true := by
        cases h : hasTextLine p
        · rw [h] at hpe
          simp only [Bool.not_false] at hpe
          exact absurd hpe he
        · rfl
      rw [if_neg he]
      dsimp only
      simp [List.filter_cons, ht, ih]

theorem processParas_sent_ne_nil (nlp : String → List String)
    (lang bc : String) (sb cn : Nat) :
    ∀ (paras : List (List String)) (idx : Nat) (ref : String) (g : Nat),
      ∀ p ∈ (processParas nlp lang bc sb cn paras idx ref g).1,
        p.sentences ≠ []
  | [], _, _, _ => by intro p hp; simp [processParas] at hp
  | p :: ps, idx, ref, g => by
    intro q hq
    have ih := processParas_sent_ne_nil nlp lang bc sb cn ps (idx + 1)
      (processParaLines nlp lang bc sb cn idx p ref g).2.1
      (processParaLines nlp lang bc sb cn idx p ref g).2.2
    rw [processParas_cons] at hq
    by_cases he : (processParaLines nlp lang bc sb cn idx p ref g).1.isEmpty
    · rw [if_pos he] at hq
      exact ih q hq
    · rw [if_neg he] at hq
      dsimp only at hq
      rcases List.mem_cons.mp hq with h | h
      · subst h
        exact fun hnil => he (List.isEmpty_iff.mpr hnil)
      · exact ih q h

theorem processParas_audio (nlp : String → List String)
    (lang bc : String) (sb cn : Nat) :
    ∀ (paras : List (List String)) (idx : Nat) (ref : String) (g : Nat),
      ∀ p ∈ (processParas nlp lang bc sb cn paras idx ref g).1,
        ∀ s ∈ p.sentences,
          s.audioFile = create_audio_filename s.globalSentenceIndex bc sb cn
            p.paragraphIndex s.sentenceIndex lang
  | [], _, _, _ => by intro p hp; simp [processParas] at hp
  | p :: ps, idx, ref, g => by
    intro q hq s hs
    have ih := processParas_audio nlp lang bc sb cn ps (idx + 1)
      (processParaLines nlp lang bc sb cn idx p ref g).2.1
      (processParaLines nlp lang bc sb cn idx p ref g).2.2
    rw [processParas_cons] at hq
    by_cases he : (processParaLines nlp lang bc sb cn idx p ref g).1.isEmpty
    · rw [if_pos he] at hq
      exact ih q hq s hs
    · rw [if_neg he] at hq
      dsimp only at hq
      rcases List.mem_cons.mp hq with h | h
      · subst h
        exact processParaLines_audio nlp lang bc sb cn idx p ref g s hs
      · exact ih q h s hs

/-! ## Helper lemmas: the whole-book loop -/

theorem process_chapter_file_failed (nlp : String → List String)
    (lang bc : String) (sb : Nat) (name : String) (g : Nat) :
    process_chapter_file nlp lang bc sb { name := name, read := .failed } g
      = (none, g) := rfl

theorem process_chapter_file_empty (nlp : String → List String)
    (lang bc : String) (sb : Nat) (name : String) (g : Nat) :
    process_chapter_file nlp lang bc sb { name := name, read := .empty } g
      = (none, g) := rfl

theorem processAllGo_snd (nlp : String → List String) (lang bc : String) :
    ∀ (files : List (Nat × ChapterFile)) (g : Nat),
      (processAllGo nlp lang bc files g).2
        = g + (runSentences (processAllGo nlp lang bc files g).1).length
  | [], _ => rfl
  | (sb, f) :: fs, g => by
    match hf : f.read with
    | .failed =>
      have hfile : f = { name := f.name, read := ChapterRead.failed } := by
        cases f; simp_all
      rw [show processAllGo nlp lang bc ((sb, f) :: fs) g
          = processAllGo nlp lang bc fs g by
        rw [hfile]; simp [processAllGo, process_chapter_file]]
      exact processAllGo_snd nlp lang bc fs g
    | .empty =>
      have hfile : f = { name := f.name, read := ChapterRead.empty } := by
        cases f; simp_all
      rw [show processAllGo nlp lang bc ((sb, f) :: fs) g
          = processAllGo nlp lang bc fs g by
        rw [hfile]; simp [processAllGo, process_chapter_file]]
      exact processAllGo_snd nlp lang bc fs g
    | .content firstLine body =>
      have hfile : f = { name := f.name, read := .content firstLine body } := by
        cases f; simp_all
      have hps := processParas_snd nlp lang bc sb (chapterNumOf f.name)
        (splitBlocks body) 1 "" g
      have ih := processAllGo_snd nlp lang bc fs
        (processParas nlp lang bc sb (chapterNumOf f.name)
          (splitBlocks body) 1 "" g).2
      rw [hfile] at *
      simp only [processAllGo, process_chapter_file]
      simp only [runSentences, chapterSentences, List.map_cons,
        List.flatten_cons, List.length_append] at *
      omega

theorem processAllGo_globals (nlp : String → List String) (lang bc : String) :
    ∀ (files : List (Nat × ChapterFile)) (g : Nat),
      (runSentences (processAllGo nlp lang bc files g).1).map
          (fun s => s.globalSentenceIndex)
        = List.range' g (runSentences (processAllGo nlp lang bc files g).1).length
  | [], _ => rfl
  | (sb, f) :: fs, g => by
    match hf : f.read with
    | .failed =>
      have hfile : f = { name := f.name, read := ChapterRead.failed } := by
        cases f; simp_all
      rw [show processAllGo nlp lang bc ((sb, f) :: fs) g
          = processAllGo nlp lang bc fs g by
        rw [hfile]; simp [processAllGo, process_chapter_file]]
      exact processAllGo_globals nlp lang bc fs g
    | .empty =>
      have hfile : f = { name := f.name, read := ChapterRead.empty } := by
        cases f; simp_all
      rw [show processAllGo nlp lang bc ((sb, f) :: fs) g
          = processAllGo nlp lang bc fs g by
        rw [hfile]; simp [processAllGo, process_chapter_file]]
      exact processAllGo_globals nlp lang bc fs g
    | .content firstLine body =>
      have hfile : f = { name := f.name, read := .content firstLine body } := by
        cases f; simp_all
      have hps := processParas_snd nlp lang bc sb (chapterNumOf f.name)
        (splitBlocks body) 1 "" g
      have hpg := processParas_globals nlp lang bc sb (chapterNumOf f.name)
        (splitBlocks body) 1 "" g
      have ih := processAllGo_globals nlp lang bc fs
        (processParas nlp lang bc sb (chapterNumOf f.name)
          (splitBlocks body) 1 "" g).2
      rw [hfile] at *
      simp only [processAllGo, process_chapter_file]
      simp only [runSentences, chapterSentences, List.map_cons,
        List.flatten_cons, List.map_append, List.length_append] at *
      rw [hpg, ih, hps, List.range'_append_1]
      congr 1
      omega

theorem processAllGo_cons (nlp : String → List String) (lang bc : String)
    (sb : Nat) (f : ChapterFile) (fs : List (Nat × ChapterFile)) (g : Nat) :
    processAllGo nlp lang bc ((sb, f) :: fs) g
      = (match (process_chapter_file nlp lang bc sb f g).1 with
         | none => (processAllGo nlp lang bc fs
             (process_chapter_file nlp lang bc sb f g).2).1
         | some c => c :: (processAllGo nlp lang bc fs
             (process_chapter_file nlp lang bc sb f g).2).1,
         (processAllGo nlp lang bc fs
           (process_chapter_file nlp lang bc sb f g).2).2) := rfl

theorem processAllGo_skip (nlp : String → List String) (lang bc : String)
    (sb : Nat) (nm : String) (rd : ChapterRead)
    (hrd : rd = ChapterRead.failed ∨ rd = ChapterRead.empty) :
    ∀ (fs1 fs2 : List (Nat × ChapterFile)) (g : Nat),
      processAllGo nlp lang bc (fs1 ++ (sb, { name := nm, read := rd }) :: fs2) g
        = processAllGo nlp lang bc (fs1 ++ fs2) g
  | [], fs2, g => by
    rcases hrd with h | h <;> subst h <;>
      simp [processAllGo, process_chapter_file]
  | (sb1, f1) :: fs1, fs2, g => by
    rw [List.cons_append, List.cons_append, processAllGo_cons, processAllGo_cons,
      processAllGo_skip nlp lang bc sb nm rd hrd fs1 fs2]

/-! ## Claim theorems: the Segmentation Engine -/

/-- Claim C1: over a whole book run (shared counter starting at 1) the
global sentence indices of all emitted Sentence Records, in emission
order, are exactly `1, 2, ..., N` — no duplicates, no gaps, strictly
increasing — and the final counter value shows exactly one increment
per emitted sentence, with no reset between chapters. -/
theorem global_index_contiguity (nlp : String → List String)
    (lang bc : String) (files : List (Nat × ChapterFile)) :
    (runSentences (process_all_chapter_files nlp lang bc files).1).map
        (fun s => s.globalSentenceIndex)
      = List.range' 1
          (runSentences (process_all_chapter_files nlp lang bc files).1).length
    ∧ (process_all_chapter_files nlp lang bc files).2
      = 1 + (runSentences (process_all_chapter_files nlp lang bc files).1).length :=
  ⟨processAllGo_globals nlp lang bc files 1, processAllGo_snd nlp lang bc files 1⟩

/-- Claim C2: within a chapter text unit, a reference-marker line
yields no Sentence Record and updates the chapter-scoped reference;
every following sentence (also across paragraph blocks) carries that
reference until a new marker supersedes it; sentences before any marker
carry `""`; and the reference is re-initialized to `""` for every
chapter unit, so it cannot leak into a later chapter of the run.  The
per-sentence references are exactly those of the sequential
carry-forward scan `referenceSpec` started at `""` on the chapter's own
lines. -/
theorem reference_carry_forward (nlp : String → List String)
    (lang bc : String) (sb : Nat) (name firstLine : String)
    (body : List String) (g : Nat) :
    ((process_chapter_file nlp lang bc sb
          { name := name, read := .content firstLine body } g).1.map
        (fun c => (chapterSentences c).map (fun s => s.reference)))
      = some (referenceSpec nlp "" (splitBlocks body).flatten) := by
  simpa [process_chapter_file, chapterSentences] using
    processParas_refs nlp lang bc sb (chapterNumOf name) (splitBlocks body) 1 "" g

/-- Claim C3 (amended): global sentence indices are assigned in
processing order — chapter files in lexicographic file-name order (the
order of Python's `sorted`), then paragraph order, then line order,
then within-line segmentation order; over the whole run they are
exactly `1, ..., N` in that order.  (The original claim's stronger
reading — smaller `chapterNumber` implies smaller indices — fails,
because `sorted` compares names as strings: see the counterexample.) -/
theorem global_order_follows_processing_order (nlp : String → List String)
    (lang bc : String) (files : List ChapterFile) :
    (runSentences (run_book_single_dir nlp lang bc files).1).map
        (fun s => s.globalSentenceIndex)
      = List.range' 1
          (runSentences (run_book_single_dir nlp lang bc files).1).length
    ∧ (run_book_single_dir nlp lang bc files).2
      = 1 + (runSentences (run_book_single_dir nlp lang bc files).1).length :=
  ⟨processAllGo_globals nlp lang bc
      ((sortFilesByName files).map (fun f => (1, f))) 1,
   processAllGo_snd nlp lang bc
      ((sortFilesByName files).map (fun f => (1, f))) 1⟩

/-- Counterexample to claim C3 as stated: in a flat book holding
`chapter2.txt` and `chapter10.txt`, the file `chapter10.txt` sorts
first (`"1" < "2"` as characters), so the chapter with the larger
`chapterNumber` (10) receives the smaller global index — the claimed
chapterNumber-monotonicity of global indices within one subbook is
false. -/
theorem chapterNumber_order_refuted :
    (c3run.1.map (fun c => (c.chapterNumber,
        (chapterSentences c).map (fun s => s.globalSentenceIndex))))
      = [(10, [1]), (2, [2])]
    ∧ ¬ (∀ c1 ∈ c3run.1, ∀ c2 ∈ c3run.1,
          c1.chapterNumber < c2.chapterNumber →
          ∀ g1 ∈ (chapterSentences c1).map (fun s => s.globalSentenceIndex),
            ∀ g2 ∈ (chapterSentences c2).map (fun s => s.globalSentenceIndex),
              g1 < g2) := by
  decide

/-- Claim C4: every Sentence Record's `audioFile` is
`create_audio_filename` applied to that same sentence's own coordinate
tuple — its global index (zero-padded to 7 digits), the book code, the
subbook number, the chapter's `chapterNumber`, the enclosing
paragraph's `paragraphIndex`, its own `sentenceIndex` and the language
code; and the coordinates `(42, "BOOKM", 1, 3, 2, 5, "en-US")` derive
exactly `"0000042_BOOKM_S1_C3_P2_S5_en-US.aac"`. -/
theorem audio_filename_from_coordinates (nlp : String → List String)
    (lang bc : String) (sb : Nat) (file : ChapterFile) (g : Nat)
    (c : Chapter)
    (hc : (process_chapter_file nlp lang bc sb file g).1 = some c) :
    (∀ p ∈ c.paragraphs, ∀ s ∈ p.sentences,
        s.audioFile = create_audio_filename s.globalSentenceIndex bc sb
          c.chapterNumber p.paragraphIndex s.sentenceIndex lang)
    ∧ create_audio_filename 42 "BOOKM" 1 3 2 5 "en-US"
        = "0000042_BOOKM_S1_C3_P2_S5_en-US.aac" := by
  constructor
  · obtain ⟨name, rd⟩ := file
    cases rd with
    | failed => simp [process_chapter_file] at hc
    | empty => simp [process_chapter_file] at hc
    | content firstLine body =>
      simp only [process_chapter_file, Option.some.injEq] at hc
      subst hc
      intro p hp s hs
      exact processParas_audio nlp lang bc sb (chapterNumOf name)
        (splitBlocks body) 1 "" g p hp s hs
  · decide

/-- Witness for C4: the single sentence of the chapter produced from
`c4file` at counter value 5 carries the audio filename derived from its
own coordinates. -/
theorem audio_filename_witness :
    c4sentence.audioFile = create_audio_filename 5 "BOOKM" 1 3 1 1 "en-US" :=
  (audio_filename_from_coordinates idSeg "en-US" "BOOKM" 1 c4file 5 c4chapter
      (by decide)).1 c4para (by decide) c4sentence (by decide)

/-- Claim C5 (amended): each emitted paragraph's `paragraphIndex` is
the 1-based position of its originating block among all paragraph
blocks of the chapter body; the emitted sequence is the filter of
`1, ..., m` (m = number of blocks) to the blocks having a
sentence-bearing line.  It is contiguous `1, ..., k` exactly when
every block yields at least one sentence; a dropped block (for example
a marker-only block) leaves a gap, refuting the claim as stated. -/
theorem paragraph_index_matches_block_position (nlp : String → List String)
    (lang bc : String) (sb : Nat) (name firstLine : String)
    (body : List String) (g : Nat) :
    ((process_chapter_file nlp lang bc sb
          { name := name, read := .content firstLine body } g).1.map
        (fun c => c.paragraphs.map (fun p => p.paragraphIndex)))
      = some ((((List.range' 1 (splitBlocks body).length).zip
            (splitBlocks body)).filter (fun x => hasTextLine x.2)).map
          (fun x => x.1)) := by
  simpa [process_chapter_file] using
    processParas_paraIdx nlp lang bc sb (chapterNumOf name)
      (splitBlocks body) 1 "" g

/-- Counterexample to claim C5 as stated: in `c5file` the first
paragraph block is a lone reference marker; the emitted `paragraphs`
array has `paragraphIndex` values `[2]`, not the claimed contiguous
`1, ..., k` (here `[1]`). -/
theorem paragraph_index_gap :
    ((process_chapter_file idSeg "en-US" "BOOKM" 1 c5file 1).1.map
        (fun c => c.paragraphs.map (fun p => p.paragraphIndex)))
      = some [2]
    ∧ [2] ≠ List.range' 1 1 := by
  decide

/-- Claim C6: a paragraph block yielding zero Sentence Records is
entirely absent from the emitted Chapter Record — every paragraph of
the output has a non-empty `sentences` array (and by C5's theorem the
dropped block's position never occurs among the emitted
`paragraphIndex` values). -/
theorem no_empty_paragraph_shell (nlp : String → List String)
    (lang bc : String) (sb : Nat) (file : ChapterFile) (g : Nat)
    (c : Chapter)
    (hc : (process_chapter_file nlp lang bc sb file g).1 = some c) :
    ∀ p ∈ c.paragraphs, p.sentences ≠ [] := by
  obtain ⟨name, rd⟩ := file
  cases rd with
  | failed => simp [process_chapter_file] at hc
  | empty => simp [process_chapter_file] at hc
  | content firstLine body =>
    simp only [process_chapter_file, Option.some.injEq] at hc
    subst hc
    intro p hp
    exact processParas_sent_ne_nil nlp lang bc sb (chapterNumOf name)
      (splitBlocks body) 1 "" g p hp

/-- Witness for C6: the chapter produced from `c6file` (whose first
block is a lone marker) keeps only a paragraph with a non-empty
sentence list. -/
theorem no_empty_paragraph_shell_witness : c6para.sentences ≠ [] :=
  no_empty_paragraph_shell idSeg "en-US" "BOOKM" 1 c6file 1 c6chapter
    (by decide) c6para (by decide)

/-- Claim C7: an unreadable or empty chapter text unit produces no
Chapter Record (`none`), leaves the shared counter untouched, and the
rest of the run proceeds exactly as if the unit were not there. -/
theorem failed_unit_is_skipped (nlp : String → List String)
    (lang bc : String) (sb : Nat) (name : String) (g : Nat) :
    process_chapter_file nlp lang bc sb { name := name, read := .failed } g
        = (none, g)
    ∧ process_chapter_file nlp lang bc sb { name := name, read := .empty } g
        = (none, g)
    ∧ (∀ (fs1 fs2 : List (Nat × ChapterFile)) (sb2 g2 : Nat),
        processAllGo nlp lang bc
            (fs1 ++ (sb2, { name := name, read := .failed }) :: fs2) g2
          = processAllGo nlp lang bc (fs1 ++ fs2) g2)
    ∧ (∀ (fs1 fs2 : List (Nat × ChapterFile)) (sb2 g2 : Nat),
        processAllGo nlp lang bc
            (fs1 ++ (sb2, { name := name, read := .empty }) :: fs2) g2
          = processAllGo nlp lang bc (fs1 ++ fs2) g2) :=
  ⟨rfl, rfl,
   fun fs1 fs2 sb2 g2 =>
     processAllGo_skip nlp lang bc sb2 name ChapterRead.failed (Or.inl rfl)
       fs1 fs2 g2,
   fun fs1 fs2 sb2 g2 =>
     processAllGo_skip nlp lang bc sb2 name ChapterRead.empty (Or.inr rfl)
       fs1 fs2 g2⟩

/-! ## Helper lemmas: the Chapter Extractor

The scanning state satisfies the reachability invariant "no chapter in
progress implies no accumulated lines" (body lines are only accumulated
while a chapter is in progress, and every flush clears the
accumulation), which the three behavioural lemmas below carry along. -/

theorem extractGo_preamble :
    ∀ (pre : List BLine), (∀ l ∈ pre, isChapterB l = false) →
      ∀ (rest : List BLine) (dir : Nat) (sb : Bool) (acc : List Emitted),
        extractGo (pre ++ rest) dir none [] sb acc
          = extractGo (pre.filter isSubbookB ++ rest) dir none [] sb acc
  | [], _, _, _, _, _ => rfl
  | x :: pre, h, rest, dir, sb, acc => by
    cases x with
    | subbook st =>
      exact extractGo_preamble pre
        (fun l hl => h l (List.mem_cons_of_mem _ hl)) rest (dir + 1) true acc
    | chapter ct =>
      exact absurd (h (.chapter ct) (List.mem_cons_self _ _))
        (fun hh => nomatch hh)
    | body raw =>
      exact extractGo_preamble pre
        (fun l hl => h l (List.mem_cons_of_mem _ hl)) rest dir sb acc

theorem extractGo_chapter_chapter (t t2 : String) (rest : List BLine) :
    ∀ (ls0 : List BLine) (dir : Nat) (cur : Option String)
      (lsAcc : List String) (sb : Bool) (acc : List Emitted),
      (cur = none → lsAcc = []) →
      extractGo (ls0 ++ .chapter t :: .chapter t2 :: rest) dir cur lsAcc sb acc
        = extractGo (ls0 ++ .chapter t2 :: rest) dir cur lsAcc sb acc
  | [], dir, cur, lsAcc, sb, acc, hinv => by
    cases cur with
    | none => rw [hinv rfl]; rfl
    | some t0 =>
      cases lsAcc with
      | nil => rfl
      | cons l ls' => rfl
  | x :: ls0, dir, cur, lsAcc, sb, acc, hinv => by
    cases x with
    | subbook st =>
      cases cur with
      | none =>
        exact extractGo_chapter_chapter t t2 rest ls0 (dir + 1) none lsAcc
          true acc hinv
      | some t0 =>
        cases lsAcc with
        | nil =>
          exact extractGo_chapter_chapter t t2 rest ls0 (dir + 1) (some t0) []
            true acc (fun h => rfl)
        | cons l ls' =>
          exact extractGo_chapter_chapter t t2 rest ls0 (dir + 1) none []
            true (emitChapter dir t0 (l :: ls') acc) (fun _ => rfl)
    | chapter ct =>
      cases cur with
      | none =>
        exact extractGo_chapter_chapter t t2 rest ls0 dir (some ct) lsAcc
          sb acc (fun h => nomatch h)
      | some t0 =>
        cases lsAcc with
        | nil =>
          exact extractGo_chapter_chapter t t2 rest ls0 dir (some ct) []
            sb acc (fun h => nomatch h)
        | cons l ls' =>
          exact extractGo_chapter_chapter t t2 rest ls0 dir (some ct) []
            sb (emitChapter dir t0 (l :: ls') acc) (fun h => nomatch h)
    | body raw =>
      cases cur with
      | none =>
        exact extractGo_chapter_chapter t t2 rest ls0 dir none lsAcc sb acc hinv
      | some t0 =>
        exact extractGo_chapter_chapter t t2 rest ls0 dir (some t0)
          (lsAcc ++ [raw]) sb acc (fun h => nomatch h)

theorem extractGo_trailing_chapter (t : String) :
    ∀ (ls0 : List BLine) (dir : Nat) (cur : Option String)
      (lsAcc : List String) (sb : Bool) (acc : List Emitted),
      (cur = none → lsAcc = []) →
      extractGo (ls0 ++ [.chapter t]) dir cur lsAcc sb acc
        = extractGo ls0 dir cur lsAcc sb acc
  | [], dir, cur, lsAcc, sb, acc, hinv => by
    cases cur with
    | none => rw [hinv rfl]; rfl
    | some t0 =>
      cases lsAcc with
      | nil => rfl
      | cons l ls' => rfl
  | x :: ls0, dir, cur, lsAcc, sb, acc, hinv => by
    cases x with
    | subbook st =>
      cases cur with
      | none =>
        exact extractGo_trailing_chapter t ls0 (dir + 1) none lsAcc true acc hinv
      | some t0 =>
        cases lsAcc with
        | nil =>
          exact extractGo_trailing_chapter t ls0 (dir + 1) (some t0) [] true acc
            (fun h => rfl)
        | cons l ls' =>
          exact extractGo_trailing_chapter t ls0 (dir + 1) none [] true
            (emitChapter dir t0 (l :: ls') acc) (fun _ => rfl)
    | chapter ct =>
      cases cur with
      | none =>
        exact extractGo_trailing_chapter t ls0 dir (some ct) lsAcc sb acc
          (fun h => nomatch h)
      | some t0 =>
        cases lsAcc with
        | nil =>
          exact extractGo_trailing_chapter t ls0 dir (some ct) [] sb acc
            (fun h => nomatch h)
        | cons l ls' =>
          exact extractGo_trailing_chapter t ls0 dir (some ct) [] sb
            (emitChapter dir t0 (l :: ls') acc) (fun h => nomatch h)
    | body raw =>
      cases cur with
      | none =>
        exact extractGo_trailing_chapter t ls0 dir none lsAcc sb acc hinv
      | some t0 =>
        exact extractGo_trailing_chapter t ls0 dir (some t0) (lsAcc ++ [raw])
          sb acc (fun h => nomatch h)

/-! ## Claim theorem: the Chapter Extractor -/

/-- Claim C9: (a) body lines before the first `CHAPTER` marker never
contribute to any emitted chapter unit — the extraction of
`pre ++ rest` for a chapter-marker-free `pre` equals the extraction
with only `pre`'s `SUBBOOK` markers kept; (b) a `CHAPTER` marker whose
accumulation is empty when flushed (immediately followed by another
`CHAPTER` marker, or at end of input) produces no emitted chapter
unit. -/
theorem preamble_and_empty_chapter_dropped :
    (∀ (pre rest : List BLine), (∀ l ∈ pre, isChapterB l = false) →
        extract_chapters (pre ++ rest)
          = extract_chapters (pre.filter isSubbookB ++ rest))
    ∧ (∀ (ls0 : List BLine) (t t2 : String) (rest : List BLine),
        extract_chapters (ls0 ++ .chapter t :: .chapter t2 :: rest)
          = extract_chapters (ls0 ++ .chapter t2 :: rest))
    ∧ (∀ (ls0 : List BLine) (t : String),
        extract_chapters (ls0 ++ [.chapter t]) = extract_chapters ls0) :=
  ⟨fun pre rest h => extractGo_preamble pre h rest 0 false [],
   fun ls0 t t2 rest =>
     extractGo_chapter_chapter t t2 rest ls0 0 none [] false [] (fun _ => rfl),
   fun ls0 t =>
     extractGo_trailing_chapter t ls0 0 none [] false [] (fun _ => rfl)⟩

/-- Witness for C9: a concrete preamble (a stray body line and a
subbook marker) does not change the extraction outcome. -/
theorem preamble_discarded_witness :
    extract_chapters (c9pre ++ c9rest)
      = extract_chapters (c9pre.filter isSubbookB ++ c9rest) :=
  preamble_and_empty_chapter_dropped.1 c9pre c9rest (by decide)

/-! ## Helper lemmas: the Translator heap -/

theorem readS_cons_succ (x : Sentence) (h : THeap) (a : Nat) :
    readS (x :: h) (a + 1) = readS h a := rfl

theorem readS_append_left (l : THeap) :
    ∀ (h : THeap) (a : Nat), a < h.length → readS (h ++ l) a = readS h a
  | [], a, ha => absurd ha (by simp)
  | x :: h, 0, _ => rfl
  | x :: h, a + 1, ha =>
    readS_append_left l h a (by simpa using ha)

theorem readS_append_mid (x : Sentence) (xs : List Sentence) :
    ∀ (h : THeap), readS (h ++ x :: xs) h.length = x
  | [] => rfl
  | _ :: h => readS_append_mid x xs h

theorem set_append_mid (x y : Sentence) (xs : List Sentence) :
    ∀ (h : THeap), (h ++ x :: xs).set h.length y = h ++ y :: xs
  | [] => rfl
  | c :: h => by
    simp only [List.cons_append, List.length_cons, List.set_cons_succ]
    rw [set_append_mid x y xs h]

theorem passOver_fresh (f : Sentence → Sentence) :
    ∀ (l : List Sentence) (h : THeap),
      passOver f (h ++ l) (List.range' h.length l.length) = h ++ l.map f
  | [], h => by simp [passOver]
  | x :: xs, h => by
    rw [List.length_cons, List.range'_succ]
    show passOver f (updateAt f (h ++ x :: xs) h.length)
        (List.range' (h.length + 1) xs.length) = h ++ f x :: xs.map f
    rw [show updateAt f (h ++ x :: xs) h.length = h ++ f x :: xs by
      rw [updateAt, readS_append_mid x xs h, set_append_mid x (f x) xs h]]
    have := passOver_fresh f xs (h ++ [f x])
    simp only [List.length_append, List.length_cons, List.length_nil,
      List.append_assoc, List.cons_append, List.nil_append] at this
    simpa using this

theorem map_readS_fresh :
    ∀ (l : List Sentence) (h : THeap),
      (List.range' h.length l.length).map (readS (h ++ l)) = l
  | [], h => rfl
  | x :: xs, h => by
    rw [List.length_cons, List.range'_succ, List.map_cons,
      readS_append_mid x xs h]
    have := map_readS_fresh xs (h ++ [x])
    simp only [List.length_append, List.length_cons, List.length_nil,
      List.append_assoc, List.cons_append, List.nil_append] at this
    simpa using this

theorem flatAddrs_renumber :
    ∀ (ps : List (Nat × List Nat)) (base : Nat),
      flatAddrs (renumberParas base ps)
        = List.range' base (flatAddrs ps).length
  | [], _ => rfl
  | (pi, as) :: rest, base => by
    have ih := flatAddrs_renumber rest (base + as.length)
    simp only [renumberParas, flatAddrs, List.map_cons, List.flatten_cons] at *
    rw [ih, List.range'_append_1, List.length_append]
    congr 1
    omega

theorem paraSkeleton_renumber :
    ∀ (ps : List (Nat × List Nat)) (base : Nat),
      paraSkeleton (renumberParas base ps) = paraSkeleton ps
  | [], _ => rfl
  | (pi, as) :: rest, base => by
    simp only [renumberParas, paraSkeleton, List.map_cons]
    rw [show (List.range' base as.length).length = as.length from by simp]
    have := paraSkeleton_renumber rest (base + as.length)
    simp only [paraSkeleton] at this
    rw [this]

theorem passOver_fresh' (f : Sentence → Sentence) (l : List Sentence)
    (h : THeap) (n : Nat) (hn : n = l.length) :
    passOver f (h ++ l) (List.range' h.length n) = h ++ l.map f := by
  subst hn
  exact passOver_fresh f l h

/-- One step of the target loop, in closed form: the heap grows by the
block of translated copies of the native cells, and the output tree for
this target is the renumbered chapter with its language set. -/
theorem processTargetsGo_cons (tr : String → String → Option String)
    (lmap : List (String × String)) (native t : String) (ts : List String)
    (h : THeap) (c : ChapterRef) :
    processTargetsGo tr lmap native (t :: ts) h c
      = ((processTargetsGo tr lmap native ts
            (h ++ ((flatAddrs c.paragraphs).map (readS h)).map
              (translateCell tr lmap native t)) c).1,
         (t, { language := t, chapterNumber := c.chapterNumber,
               chapterTitle := c.chapterTitle,
               paragraphs := renumberParas h.length c.paragraphs })
           :: (processTargetsGo tr lmap native ts
             (h ++ ((flatAddrs c.paragraphs).map (readS h)).map
               (translateCell tr lmap native t)) c).2) := by
  simp only [processTargetsGo, deepCopyChapter, translate_content]
  rw [flatAddrs_renumber c.paragraphs h.length]
  rw [passOver_fresh' (process_sentence tr lmap native t)
    ((flatAddrs c.paragraphs).map (readS h)) h
    (flatAddrs c.paragraphs).length (by simp)]
  rw [passOver_fresh' (update_audio_field native t)
    (((flatAddrs c.paragraphs).map (readS h)).map
      (process_sentence tr lmap native t)) h
    (flatAddrs c.paragraphs).length (by simp)]
  rw [List.map_map]
  rfl

/-- The full behaviour of the target loop: the original heap cells are
untouched, the outputs are indexed by the targets in order, each output
tree has the target language, the native chapter's scalar fields and
paragraph skeleton, only fresh pairwise-disjoint addresses, and its
sentence cells hold exactly the native cells' data transformed by one
`translateCell` pass. -/
theorem processTargetsGo_spec (tr : String → String → Option String)
    (lmap : List (String × String)) (native : String) :
    ∀ (targets : List String) (h : THeap) (c : ChapterRef),
      (∀ a ∈ flatAddrs c.paragraphs, a < h.length) →
      (∀ a, a < h.length →
        readS (processTargetsGo tr lmap native targets h c).1 a = readS h a)
      ∧ (processTargetsGo tr lmap native targets h c).2.map (fun o => o.1)
          = targets
      ∧ (∀ o ∈ (processTargetsGo tr lmap native targets h c).2,
          o.2.language = o.1 ∧ o.2.chapterNumber = c.chapterNumber
            ∧ o.2.chapterTitle = c.chapterTitle
            ∧ paraSkeleton o.2.paragraphs = paraSkeleton c.paragraphs)
      ∧ (∀ o ∈ (processTargetsGo tr lmap native targets h c).2,
          ∀ a ∈ flatAddrs o.2.paragraphs, h.length ≤ a)
      ∧ List.Pairwise (fun o1 o2 => ∀ a ∈ flatAddrs o1.2.paragraphs,
          ∀ b ∈ flatAddrs o2.2.paragraphs, a ≠ b)
          (processTargetsGo tr lmap native targets h c).2
      ∧ (∀ o ∈ (processTargetsGo tr lmap native targets h c).2,
          (flatAddrs o.2.paragraphs).map
              (readS (processTargetsGo tr lmap native targets h c).1)
            = ((flatAddrs c.paragraphs).map (readS h)).map
                (translateCell tr lmap native o.1))
  | [], h, c, hv =>
    ⟨fun a _ => rfl, rfl, by simp [processTargetsGo],
     by simp [processTargetsGo], by simp [processTargetsGo],
     by simp [processTargetsGo]⟩
  | t :: ts, h, c, hv => by
    have hstep := processTargetsGo_cons tr lmap native t ts h c
    have htclen : (((flatAddrs c.paragraphs).map (readS h)).map
        (translateCell tr lmap native t)).length
        = (flatAddrs c.paragraphs).length := by simp
    have hv3 : ∀ a ∈ flatAddrs c.paragraphs,
        a < (h ++ ((flatAddrs c.paragraphs).map (readS h)).map
          (translateCell tr lmap native t)).length := by
      intro a ha
      calc a < h.length := hv a ha
        _ ≤ _ := by simp
    obtain ⟨ih1, ih2, ih3, ih4, ih5, ih6⟩ :=
      processTargetsGo_spec tr lmap native ts
        (h ++ ((flatAddrs c.paragraphs).map (readS h)).map
          (translateCell tr lmap native t)) c hv3
    rw [hstep]
    dsimp only
    refine ⟨?_, ?_, ?_, ?_, ?_, ?_⟩
    · intro a ha
      rw [ih1 a (by calc a < h.length := ha
            _ ≤ _ := by simp)]
      exact readS_append_left _ h a ha
    · rw [List.map_cons, ih2]
    · intro o ho
      rcases List.mem_cons.mp ho with hh | hh
      · subst hh
        exact ⟨rfl, rfl, rfl, paraSkeleton_renumber c.paragraphs h.length⟩
      · exact ih3 o hh
    · intro o ho
      rcases List.mem_cons.mp ho with hh | hh
      · subst hh
        intro a ha
        dsimp only at ha
        rw [flatAddrs_renumber] at ha
        exact (List.mem_range'_1.mp ha).1
      · intro a ha
        calc h.length ≤ (h ++ ((flatAddrs c.paragraphs).map (readS h)).map
              (translateCell tr lmap native t)).length := by simp
          _ ≤ a := ih4 o hh a ha
    · constructor
      · intro o2 ho2 a ha b hb
        dsimp only at ha
        rw [flatAddrs_renumber] at ha
        have ha2 := (List.mem_range'_1.mp ha).2
        have hb2 : (h ++ ((flatAddrs c.paragraphs).map (readS h)).map
            (translateCell tr lmap native t)).length ≤ b := ih4 o2 ho2 b hb
        simp only [List.length_append, htclen] at hb2
        omega
      · exact ih5
    · intro o ho
      rcases List.mem_cons.mp ho with hh | hh
      · subst hh
        dsimp only
        rw [flatAddrs_renumber]
        rw [List.map_congr_left (fun a ha => ih1 a (by
          have := (List.mem_range'_1.mp ha).2
          simp only [List.length_append, htclen]
          omega))]
        rw [show List.range' h.length (flatAddrs c.paragraphs).length
            = List.range' h.length (((flatAddrs c.paragraphs).map
                (readS h)).map (translateCell tr lmap native t)).length from by
          rw [htclen]]
        exact map_readS_fresh _ h
      · rw [ih6 o hh]
        rw [List.map_congr_left (fun a ha =>
          readS_append_left _ h a (hv a ha))]

/-! ## Claim theorems: the Translator -/

/-- Claim C8: producing the translated records never mutates the native
record — every pre-existing heap cell (in particular every native
sentence object) reads back unchanged after the whole loop; each
target's output is an independent deep copy (fresh addresses, pairwise
disjoint across targets and disjoint from the native tree's) whose
top-level `language` is the target; and each output's sentence data is
exactly the native sentence data transformed by a single
`translateCell` pass — derived from the native text, never from an
already-translated text. -/
theorem translation_independence (tr : String → String → Option String)
    (lmap : List (String × String)) (native : String)
    (targets : List String) (h : THeap) (c : ChapterRef)
    (hv : ∀ a ∈ flatAddrs c.paragraphs, a < h.length) :
    (∀ a, a < h.length →
      readS (process_json_file tr lmap native targets h c).1 a = readS h a)
    ∧ (process_json_file tr lmap native targets h c).2.map (fun o => o.1)
        = targets
    ∧ (∀ o ∈ (process_json_file tr lmap native targets h c).2,
        o.2.language = o.1 ∧ o.2.chapterNumber = c.chapterNumber
          ∧ o.2.chapterTitle = c.chapterTitle
          ∧ paraSkeleton o.2.paragraphs = paraSkeleton c.paragraphs)
    ∧ (∀ o ∈ (process_json_file tr lmap native targets h c).2,
        ∀ a ∈ flatAddrs o.2.paragraphs, h.length ≤ a)
    ∧ List.Pairwise (fun o1 o2 => ∀ a ∈ flatAddrs o1.2.paragraphs,
        ∀ b ∈ flatAddrs o2.2.paragraphs, a ≠ b)
        (process_json_file tr lmap native targets h c).2
    ∧ (∀ o ∈ (process_json_file tr lmap native targets h c).2,
        (flatAddrs o.2.paragraphs).map
            (readS (process_json_file tr lmap native targets h c).1)
          = ((flatAddrs c.paragraphs).map (readS h)).map
              (translateCell tr lmap native o.1)) :=
  processTargetsGo_spec tr lmap native targets h c hv

/-- Witness for C8: a concrete two-sentence native chapter translated
to one target yields exactly that target's output record. -/
theorem translation_independence_witness :
    (process_json_file c8oracle language_map "en-US" ["es-ES"] c8heap
        c8chapter).2.map (fun o => o.1) = ["es-ES"] :=
  (translation_independence c8oracle language_map "en-US" ["es-ES"] c8heap
      c8chapter (by decide)).2.1

/-- Claim C10: a sentence whose native text is empty or whitespace-only
is not translated — one full target pass leaves its `text` (and every
other field except `audioFile`) exactly as it was, while the second
audio pass of `process_json_file` still rewrites the trailing native
language code of `audioFile` to the target code; any sibling sentence
with non-blank text and a supported target is translated normally. -/
theorem blank_native_text_skipped (tr : String → String → Option String)
    (lmap : List (String × String)) (native target : String) (s : Sentence) :
    (pyStrip s.text = "" →
      translateCell tr lmap native target s
        = { s with audioFile := replaceLangSuffix native target s.audioFile })
    ∧ (∀ nm, pyStrip s.text ≠ "" → lmap.lookup target = some nm →
        (translateCell tr lmap native target s).text
          = translate_text tr (pyStrip s.text) nm) := by
  constructor
  · intro hb
    simp [translateCell, process_sentence, update_audio_field, hb]
  · intro nm hnb hlk
    simp [translateCell, process_sentence, update_audio_field, hnb, hlk]

/-- Witness for C10: a whitespace-only sentence keeps its text but its
audio filename moves to the target language, and a sibling with real
text is translated. -/
theorem blank_native_text_witness :
    translateCell c8oracle language_map "en-US" "es-ES" c10sentence
        = { c10sentence with
            audioFile := replaceLangSuffix "en-US" "es-ES"
              c10sentence.audioFile }
    ∧ (translateCell c8oracle language_map "en-US" "es-ES" c10sibling).text
        = translate_text c8oracle (pyStrip c10sibling.text) "Spanish" :=
  ⟨(blank_native_text_skipped c8oracle language_map "en-US" "es-ES"
      c10sentence).1 (by decide),
   (blank_native_text_skipped c8oracle language_map "en-US" "es-ES"
      c10sibling).2 "Spanish" (by decide) (by decide)⟩

end ContentPipeline
